import Mathlib

/-!
Verification of the kra-connect-node SDK resilience core.

This file gives a shallow embedding, in Lean 4, of the parts of the
TypeScript SDK that the specification's claims are about:

* `src/config.ts` — configuration defaults, merging, validation and the
  retry-delay computation;
* `src/rate-limiter.ts` — the token-bucket rate limiter;
* `src/cache.ts` — the in-memory FIFO-bounded cache and the cache manager
  (including its MD5-based key derivation);
* `src/http-client.ts` — response normalization and error classification
  (both transport variants present in the repository);
* `src/validators.ts` — PIN format validation;
* `src/client.ts` — the `verifyPin` / `verifyPinsBatch` orchestration.

JavaScript numbers are modelled as rationals (`ℚ`), with `Option` standing
for `undefined`/`NaN` where a function is partial, and `Except` for thrown
exceptions.  Stateful classes become structures with explicit state
passing; wall-clock reads (`Date.now()`) become explicit `now` arguments.
-/

namespace KraSpec

/-! ## JavaScript string primitives

Character-level models of the JavaScript string operations the SDK uses:
`trim`, `toUpperCase`/`toLowerCase` (ASCII range, which is all the SDK's
inputs exercise), and `parseInt(s, 10)`.
-/

/-- Code points removed by JavaScript `String.prototype.trim` (the ASCII
whitespace characters plus NBSP and the BOM). -/
def jsWhitespaceChar (c : Char) : Bool :=
  c.toNat = 32 || c.toNat = 9 || c.toNat = 10 || c.toNat = 13 ||
  c.toNat = 11 || c.toNat = 12 || c.toNat = 160 || c.toNat = 65279

/-- Strip leading and trailing JavaScript whitespace from a character list. -/
def jsTrimList (cs : List Char) : List Char :=
  ((cs.dropWhile jsWhitespaceChar).reverse.dropWhile jsWhitespaceChar).reverse

/-- JavaScript `String.prototype.trim`. -/
def jsTrim (s : String) : String :=
  String.mk (jsTrimList s.toList)

/-- JavaScript `String.prototype.toUpperCase`, character-wise on the ASCII
range (the SDK only upper-cases PIN/TCC strings, which are ASCII). -/
def jsToUpperCase (s : String) : String :=
  String.mk (s.toList.map Char.toUpper)

/-- JavaScript `String.prototype.toLowerCase`, ASCII range. -/
def jsToLowerCase (s : String) : String :=
  String.mk (s.toList.map Char.toLower)

/-- Digit run accepted by `parseInt(s, 10)` after sign processing: the
longest prefix of decimal digits, `none` (NaN) when it is empty. -/
def jsParseIntDigits (cs : List Char) : Option ℤ :=
  let ds := cs.takeWhile Char.isDigit
  if ds.isEmpty then none
  else some (ds.foldl (fun a c => a * 10 + ((c.toNat : ℤ) - 48)) 0)

/-- JavaScript `parseInt(s, 10)`: skip leading whitespace, read an optional
sign, then the longest prefix of decimal digits; `none` models `NaN`. -/
def jsParseInt (s : String) : Option ℤ :=
  match s.toList.dropWhile jsWhitespaceChar with
  | '+' :: rest => jsParseIntDigits rest
  | '-' :: rest => (jsParseIntDigits rest).map (fun n => -n)
  | rest => jsParseIntDigits rest

/-! ## A small JSON value model

Payloads exchanged with the upstream API are JSON objects.  The SDK only
inspects string, boolean and nested-object fields, so the model covers
null, booleans, numbers, strings and objects (arrays do not occur on any
path the claims are about). -/

/-- JSON-like runtime values, as seen by the SDK's tolerant field access. -/
inductive JVal where
  | jnull
  | jbool (b : Bool)
  | jnum (n : ℚ)
  | jstr (s : String)
  | jobj (fields : List (String × JVal))

/-- Property access `fields[k]` on an object: the first binding of `k`
(JavaScript objects have unique keys, so lists built from objects never
carry duplicates). -/
def lookupField (fields : List (String × JVal)) (k : String) : Option JVal :=
  match fields with
  | [] => none
  | (k1, v) :: rest => if k1 = k then some v else lookupField rest k

/-- Walk a candidate key list, returning the first field whose value is a
string with non-empty trim — the body of `firstString` in
`src/http-client.ts`. -/
def firstStringIn (fields : List (String × JVal)) : List String → Option String
  | [] => none
  | k :: ks =>
    match lookupField fields k with
    | some (.jstr v) => if 0 < (jsTrim v).length then some v else firstStringIn fields ks
    | _ => firstStringIn fields ks

/-- `firstString(source, ...keys)` from `src/http-client.ts`: `undefined`
unless `source` is an object, otherwise the first candidate field holding a
non-blank string (returned untrimmed). -/
def firstString (source : JVal) (keys : List String) : Option String :=
  match source with
  | .jobj fields => firstStringIn fields keys
  | _ => none

/-- `source[k]` when it is a boolean, `undefined` otherwise — the
`typeof payload.success === 'boolean'` probe. -/
def boolField (source : JVal) (k : String) : Option Bool :=
  match source with
  | .jobj fields =>
    match lookupField fields k with
    | some (.jbool b) => some b
    | _ => none
  | _ => none

/-- `source[k]` when it is a string, `undefined` otherwise (the SDK's typed
result fields are declared `string | undefined`). -/
def strField (source : JVal) (k : String) : Option String :=
  match source with
  | .jobj fields =>
    match lookupField fields k with
    | some (.jstr s) => some s
    | _ => none
  | _ => none

/-! ## Exceptions (`src/exceptions.ts`)

Each subclass of `KraConnectError` becomes a constructor carrying the data
its TypeScript constructor stores.  `RateLimitExceededError.retryAfter` is
an `Option ℚ` because `parseInt` can hand the constructor `NaN`. -/

/-- The SDK's exception taxonomy from `src/exceptions.ts`. -/
inductive KraError where
  | kraConnectError (message : String)
  | invalidPinFormatError (pinNumber : String)
  | invalidTccFormatError (tccNumber : String)
  | apiAuthenticationError (message : String)
  | apiTimeoutError (timeout : ℚ) (endpoint : String)
  | rateLimitExceededError (retryAfter : Option ℚ)
  | apiError (message : String) (statusCode : Option ℕ) (responseData : Option JVal)
  | validationError (field : String) (message : String)
  | cacheError (message : String) (operation : String)

/-- Renders `retryAfter` the way JavaScript template literals do (`NaN`
for the missing case). -/
def showRetryAfter (retryAfter : Option ℚ) : String :=
  match retryAfter with
  | some q => toString q
  | none => "NaN"

/-- The `.message` each exception constructor builds in
`src/exceptions.ts`. -/
def kraErrorMessage (e : KraError) : String :=
  match e with
  | .kraConnectError m => m
  | .invalidPinFormatError p =>
      "Invalid PIN format: '" ++ p ++
      "'. Expected format: P followed by 9 digits and a letter (e.g., P051234567A)"
  | .invalidTccFormatError t =>
      "Invalid TCC format: '" ++ t ++ "'. Expected format: TCC followed by digits"
  | .apiAuthenticationError m => m
  | .apiTimeoutError t ep => "Request to " ++ ep ++ " timed out after " ++ toString t ++ "ms"
  | .rateLimitExceededError ra =>
      "Rate limit exceeded. Retry after " ++ showRetryAfter ra ++ " seconds"
  | .apiError m _ _ => m
  | .validationError f m => "Validation error for field '" ++ f ++ "': " ++ m
  | .cacheError m _ => m

/-! ## Configuration (`src/config.ts` and `src/types.ts`)

`KraConfig` models the user-facing interface with optional fields;
`KraConfigFull` models `Required<KraConfig>` after merging. -/

/-- `Required<RetryConfig>`. -/
structure RetryConfigFull where
  maxAttempts : ℚ
  initialDelay : ℚ
  maxDelay : ℚ
  exponentialBase : ℚ
  retryOnTimeout : Bool
  retryOnRateLimit : Bool
deriving Repr, DecidableEq

/-- `Required<CacheConfig>`. -/
structure CacheConfigFull where
  enabled : Bool
  ttl : ℚ
  maxSize : ℚ
deriving Repr, DecidableEq

/-- `Required<RateLimitConfig>`. -/
structure RateLimitConfigFull where
  maxRequests : ℚ
  windowSeconds : ℚ
  enabled : Bool
deriving Repr, DecidableEq

/-- `RetryConfig` with every field optional, as callers supply it. -/
structure RetryConfigOpt where
  maxAttempts : Option ℚ := none
  initialDelay : Option ℚ := none
  maxDelay : Option ℚ := none
  exponentialBase : Option ℚ := none
  retryOnTimeout : Option Bool := none
  retryOnRateLimit : Option Bool := none
deriving Repr, DecidableEq

/-- `CacheConfig` with optional fields. -/
structure CacheConfigOpt where
  enabled : Option Bool := none
  ttl : Option ℚ := none
  maxSize : Option ℚ := none
deriving Repr, DecidableEq

/-- `RateLimitConfig` with optional fields. -/
structure RateLimitConfigOpt where
  maxRequests : Option ℚ := none
  windowSeconds : Option ℚ := none
  enabled : Option Bool := none
deriving Repr, DecidableEq

/-- The user-facing `KraConfig` interface (`src/types.ts`): only `apiKey`
is required; an absent sub-object behaves like one with every field
absent, which is how `{...defaults, ...userConfig.retryConfig}` treats
`undefined`. -/
structure KraConfig where
  apiKey : String
  baseUrl : Option String := none
  timeout : Option ℚ := none
  verifySsl : Option Bool := none
  retryConfig : RetryConfigOpt := {}
  cacheConfig : CacheConfigOpt := {}
  rateLimitConfig : RateLimitConfigOpt := {}
  userAgent : Option String := none
deriving Repr, DecidableEq

/-- `DEFAULT_RETRY_CONFIG` from `src/config.ts`. -/
def DEFAULT_RETRY_CONFIG : RetryConfigFull :=
  { maxAttempts := 3, initialDelay := 1000, maxDelay := 30000, exponentialBase := 2,
    retryOnTimeout := true, retryOnRateLimit := true }

/-- `DEFAULT_CACHE_CONFIG` from `src/config.ts`. -/
def DEFAULT_CACHE_CONFIG : CacheConfigFull :=
  { enabled := true, ttl := 3600, maxSize := 1000 }

/-- `DEFAULT_RATE_LIMIT_CONFIG` from `src/config.ts`. -/
def DEFAULT_RATE_LIMIT_CONFIG : RateLimitConfigFull :=
  { maxRequests := 100, windowSeconds := 60, enabled := true }

/-- `createDefaultConfig(apiKey)` from `src/config.ts`. -/
structure KraConfigFull where
  apiKey : String
  baseUrl : String
  timeout : ℚ
  verifySsl : Bool
  retryConfig : RetryConfigFull
  cacheConfig : CacheConfigFull
  rateLimitConfig : RateLimitConfigFull
  userAgent : String
deriving Repr, DecidableEq

/-- `createDefaultConfig` from `src/config.ts`. -/
def createDefaultConfig (apiKey : String) : KraConfigFull :=
  { apiKey := apiKey
    baseUrl := "https://api.kra.go.ke/gavaconnect/v1"
    timeout := 30000
    verifySsl := true
    retryConfig := DEFAULT_RETRY_CONFIG
    cacheConfig := DEFAULT_CACHE_CONFIG
    rateLimitConfig := DEFAULT_RATE_LIMIT_CONFIG
    userAgent := "kra-connect-node/0.1.0" }

/-- `mergeConfig(userConfig)` from `src/config.ts`: object spread of the
defaults under the user's values, one level deep into the three
sub-configurations.  Note that it performs no validation. -/
def mergeConfig (userConfig : KraConfig) : KraConfigFull :=
  let defaults := createDefaultConfig userConfig.apiKey
  { apiKey := userConfig.apiKey
    baseUrl := userConfig.baseUrl.getD defaults.baseUrl
    timeout := userConfig.timeout.getD defaults.timeout
    verifySsl := userConfig.verifySsl.getD defaults.verifySsl
    retryConfig :=
      { maxAttempts := userConfig.retryConfig.maxAttempts.getD defaults.retryConfig.maxAttempts
        initialDelay := userConfig.retryConfig.initialDelay.getD defaults.retryConfig.initialDelay
        maxDelay := userConfig.retryConfig.maxDelay.getD defaults.retryConfig.maxDelay
        exponentialBase :=
          userConfig.retryConfig.exponentialBase.getD defaults.retryConfig.exponentialBase
        retryOnTimeout :=
          userConfig.retryConfig.retryOnTimeout.getD defaults.retryConfig.retryOnTimeout
        retryOnRateLimit :=
          userConfig.retryConfig.retryOnRateLimit.getD defaults.retryConfig.retryOnRateLimit }
    cacheConfig :=
      { enabled := userConfig.cacheConfig.enabled.getD defaults.cacheConfig.enabled
        ttl := userConfig.cacheConfig.ttl.getD defaults.cacheConfig.ttl
        maxSize := userConfig.cacheConfig.maxSize.getD defaults.cacheConfig.maxSize }
    rateLimitConfig :=
      { maxRequests :=
          userConfig.rateLimitConfig.maxRequests.getD defaults.rateLimitConfig.maxRequests
        windowSeconds :=
          userConfig.rateLimitConfig.windowSeconds.getD defaults.rateLimitConfig.windowSeconds
        enabled := userConfig.rateLimitConfig.enabled.getD defaults.rateLimitConfig.enabled }
    userAgent := userConfig.userAgent.getD defaults.userAgent }

/-- `ConfigBuilder.validate` from `src/config.ts`, checks in source order;
`ConfigBuilder.fromEnv` calls it after building its configuration, but the
`KraClient` constructor does not. -/
def validateConfig (config : KraConfigFull) : Except String Unit :=
  if config.apiKey = "" then .error "API key is required"
  else if config.timeout ≤ 0 then .error "Timeout must be positive"
  else if config.retryConfig.maxAttempts < 1 then .error "maxAttempts must be at least 1"
  else if config.retryConfig.initialDelay ≤ 0 then .error "initialDelay must be positive"
  else if config.retryConfig.maxDelay < config.retryConfig.initialDelay then
    .error "maxDelay must be greater than or equal to initialDelay"
  else if config.retryConfig.exponentialBase ≤ 1 then
    .error "exponentialBase must be greater than 1"
  else if config.cacheConfig.ttl ≤ 0 then .error "Cache TTL must be positive"
  else if config.cacheConfig.maxSize ≤ 0 then .error "Cache maxSize must be positive"
  else if config.rateLimitConfig.maxRequests ≤ 0 then
    .error "Rate limit maxRequests must be positive"
  else if config.rateLimitConfig.windowSeconds ≤ 0 then
    .error "Rate limit windowSeconds must be positive"
  else .ok ()

/-- The pre-jitter delay inside `ConfigBuilder.getRetryDelay`
(`src/config.ts`): `min(initialDelay * exponentialBase^attempt, maxDelay)`. -/
def preJitterDelay (config : RetryConfigFull) (attempt : ℕ) : ℚ :=
  min (config.initialDelay * config.exponentialBase ^ attempt) config.maxDelay

/-- `ConfigBuilder.getRetryDelay(config, attempt)` from `src/config.ts`,
with the `Math.random()` draw made an explicit argument `rand ∈ [0, 1)`:
the jitter is `delay * 0.25 * (2 * rand - 1)` and the result is clamped
below at 0. -/
def getRetryDelay (config : RetryConfigFull) (attempt : ℕ) (rand : ℚ) : ℚ :=
  let delay := preJitterDelay config attempt
  let jitter := delay * (1 / 4) * (2 * rand - 1)
  max 0 (delay + jitter)

/-! ## Token-bucket rate limiter (`src/rate-limiter.ts`)

The mutable fields `tokens`/`lastRefill` of `TokenBucketRateLimiter`
become an explicit state record; `Date.now()` becomes a `now` argument. -/

/-- Mutable state of `TokenBucketRateLimiter`. -/
structure RLState where
  tokens : ℚ
  lastRefill : ℚ
deriving Repr, DecidableEq

/-- `this.refillRate = maxRequests / (windowSeconds * 1000)` (tokens per
millisecond). -/
def refillRate (cfg : RateLimitConfigFull) : ℚ :=
  cfg.maxRequests / (cfg.windowSeconds * 1000)

/-- `refillTokens()` from `src/rate-limiter.ts`: credit elapsed time at the
refill rate, clamp at capacity, advance the refill clock. -/
def refillTokens (cfg : RateLimitConfigFull) (now : ℚ) (st : RLState) : RLState :=
  let elapsed := now - st.lastRefill
  let tokensToAdd := elapsed * refillRate cfg
  { tokens := min (st.tokens + tokensToAdd) cfg.maxRequests, lastRefill := now }

/-- One pass of `acquire(cost, block = false)` — for a non-blocking call
the `while (true)` loop runs exactly once: refill, then either deduct and
return `true`, or throw `RateLimitExceededError(this.windowSeconds)`. -/
def tryAcquire (cfg : RateLimitConfigFull) (cost : ℚ) (now : ℚ) (st : RLState) :
    Except KraError RLState :=
  if !cfg.enabled then .ok st
  else
    let st1 := refillTokens cfg now st
    if cost ≤ st1.tokens then .ok { st1 with tokens := st1.tokens - cost }
    else .error (.rateLimitExceededError (some cfg.windowSeconds))

/-- `n` consecutive `acquire(1, block = false)` calls at a fixed instant
`now`, stopping at the first failure. -/
def tryAcquireN (cfg : RateLimitConfigFull) (now : ℚ) : ℕ → RLState → Except KraError RLState
  | 0, st => .ok st
  | n + 1, st =>
    match tryAcquire cfg 1 now st with
    | .ok st1 => tryAcquireN cfg now n st1
    | .error e => .error e

/-- `acquire(1, block = true)` with no timeout, which in the source
suspends in bounded sleeps until the bucket has refilled enough and then
deducts, never throwing.  With time frozen at `now`, the wait is modelled
as resuming the moment exactly one token is available, leaving an empty
bucket. -/
def acquireBlocking (cfg : RateLimitConfigFull) (now : ℚ) (st : RLState) : RLState :=
  if !cfg.enabled then st
  else
    let st1 := refillTokens cfg now st
    if 1 ≤ st1.tokens then { st1 with tokens := st1.tokens - 1 }
    else { st1 with tokens := 0 }

/-- `reset()` from `src/rate-limiter.ts`. -/
def rlReset (cfg : RateLimitConfigFull) (now : ℚ) : RLState :=
  { tokens := cfg.maxRequests, lastRefill := now }

/-! ## In-memory cache (`src/cache.ts`)

`MemoryCacheBackend` wraps a JavaScript `Map`, which iterates in insertion
order; the model is an insertion-ordered association list.  `Map.set` on an
existing key updates the value in place (keeping the key's position),
`Map.delete` removes the entry, and `keys().next().value` is the head key. -/

/-- A cache entry, `{ value, expiresAt }`. -/
structure CacheEntry (α : Type) where
  value : α
  expiresAt : ℚ
deriving Repr, DecidableEq

/-- `Map.get`. -/
def entriesGet (l : List (String × CacheEntry α)) (k : String) : Option (CacheEntry α) :=
  match l with
  | [] => none
  | (k1, e) :: rest => if k1 = k then some e else entriesGet rest k

/-- `Map.set`: replace in place when the key exists, append otherwise. -/
def entriesSet (l : List (String × CacheEntry α)) (k : String) (e : CacheEntry α) :
    List (String × CacheEntry α) :=
  match l with
  | [] => [(k, e)]
  | (k1, e1) :: rest =>
    if k1 = k then (k1, e) :: rest else (k1, e1) :: entriesSet rest k e

/-- `Map.delete`. -/
def entriesDelete (l : List (String × CacheEntry α)) (k : String) :
    List (String × CacheEntry α) :=
  l.filter (fun p => p.1 ≠ k)

/-- `MemoryCacheBackend` with its construction parameters. -/
structure MemoryCacheBackend (α : Type) where
  entries : List (String × CacheEntry α)
  maxSize : ℚ
  defaultTtl : ℚ
deriving Repr, DecidableEq

/-- `MemoryCacheBackend.get(key)` at instant `now`: expiry is checked
lazily — an expired entry (strictly past `expiresAt`) is deleted and the
call reports a miss; otherwise the stored value is returned. -/
def MemoryCacheBackend.get (c : MemoryCacheBackend α) (key : String) (now : ℚ) :
    Option α × MemoryCacheBackend α :=
  match entriesGet c.entries key with
  | none => (none, c)
  | some entry =>
    if now > entry.expiresAt then
      (none, { c with entries := entriesDelete c.entries key })
    else
      (some entry.value, c)

/-- `MemoryCacheBackend.set(key, value, ttl)` at instant `now`.  When the
store is at (or beyond) capacity it deletes the first iterated key — but
only when that key is truthy, so an empty-string first key is skipped —
then stores the new entry with `expiresAt = now + ttl * 1000`. -/
def MemoryCacheBackend.set (c : MemoryCacheBackend α) (key : String) (value : α) (ttl : ℚ)
    (now : ℚ) : MemoryCacheBackend α :=
  let c1 :=
    if (c.entries.length : ℚ) ≥ c.maxSize then
      match c.entries.head? with
      | some (firstKey, _) =>
        if firstKey = "" then c
        else { c with entries := entriesDelete c.entries firstKey }
      | none => c
    else c
  { c1 with entries := entriesSet c1.entries key { value := value, expiresAt := now + ttl * 1000 } }

/-- `MemoryCacheBackend.delete(key)`. -/
def MemoryCacheBackend.erase (c : MemoryCacheBackend α) (key : String) :
    MemoryCacheBackend α :=
  { c with entries := entriesDelete c.entries key }

/-! ## JSON serialization with a replacer array

`CacheManager.generateKey` calls
`JSON.stringify(params, Object.keys(params).sort())`.  Per the JSON
serialization algorithm, an array replacer acts as a property allow-list
applied to every object at every nesting depth, and fixes the emission
order of object properties. -/

/-- Escape a character inside a JSON string literal (the cases the SDK's
keys and parameters exercise). -/
def escapeJsonChar (c : Char) : String :=
  if c = '"' then "\\\"" else if c = '\\' then "\\\\" else String.mk [c]

/-- A JSON string literal. -/
def quoteJson (s : String) : String :=
  "\"" ++ String.join (s.toList.map escapeJsonChar) ++ "\""

/-- The properties an object contributes under an array replacer: for each
allowed key in replacer order, its value when the object has one. -/
def orderFields (allowed : List String) (fields : List (String × JVal)) :
    List (String × JVal) :=
  allowed.filterMap (fun k => (lookupField fields k).map (fun v => (k, v)))

theorem lookupField_mem {fields : List (String × JVal)} {k : String} {v : JVal}
    (h : lookupField fields k = some v) : (k, v) ∈ fields := by
  induction fields with
  | nil => simp [lookupField] at h
  | cons p rest ih =>
    obtain ⟨k1, v1⟩ := p
    by_cases hk : k1 = k
    · subst hk
      simp [lookupField] at h
      subst h
      exact List.mem_cons_self _ _
    · simp [lookupField, hk] at h
      exact List.mem_cons_of_mem _ (ih h)

theorem mem_orderFields {allowed : List String} {fields : List (String × JVal)}
    {p : String × JVal} (h : p ∈ orderFields allowed fields) :
    lookupField fields p.1 = some p.2 := by
  unfold orderFields at h
  rw [List.mem_filterMap] at h
  obtain ⟨k, _, hk⟩ := h
  cases hl : lookupField fields k with
  | none => rw [hl] at hk; simp at hk
  | some v =>
    rw [hl] at hk
    simp at hk
    subst hk
    exact hl

/-- `JSON.stringify(v, allowed)`: serialization with an array replacer,
which filters and orders object properties at every depth. -/
def jsonStringify (allowed : List String) (v : JVal) : String :=
  match v with
  | .jnull => "null"
  | .jbool b => cond b "true" "false"
  | .jnum n => toString n
  | .jstr s => quoteJson s
  | .jobj fields =>
    "\x7b" ++
      String.intercalate ","
        ((orderFields allowed fields).attach.map
          (fun kv => quoteJson kv.1.1 ++ ":" ++ jsonStringify allowed kv.1.2)) ++
    "\x7d"
termination_by sizeOf v
decreasing_by
  simp_wf
  obtain ⟨⟨k1, v1⟩, hkv⟩ := kv
  have hmem : ((k1, v1) : String × JVal) ∈ fields := lookupField_mem (mem_orderFields hkv)
  have hsz : sizeOf (((k1, v1)) : String × JVal) < sizeOf fields :=
    List.sizeOf_lt_of_mem hmem
  simp at hsz ⊢
  omega

/-- Insert into a sorted list of strings (UTF-16 code-unit order, which for
the SDK's ASCII keys coincides with Lean's string order). -/
def insertSortedStr (x : String) : List String → List String
  | [] => [x]
  | y :: ys => if y < x then y :: insertSortedStr x ys else x :: y :: ys

/-- `Array.prototype.sort()` on strings (default comparator). -/
def sortStrings : List String → List String
  | [] => []
  | x :: xs => insertSortedStr x (sortStrings xs)

/-! ## Cache manager (`src/cache.ts`) -/

/-- `CacheManager`: an enabled flag, the default TTL, and the in-memory
backend constructed with `(maxSize, ttl)`. -/
structure CacheManager (α : Type) where
  enabled : Bool
  ttl : ℚ
  backend : MemoryCacheBackend α
deriving Repr, DecidableEq

/-- The `CacheManager` constructor applied to an already-complete
configuration, as `KraClient` does. -/
def CacheManager.init (config : CacheConfigFull) : CacheManager α :=
  { enabled := config.enabled
    ttl := config.ttl
    backend := { entries := [], maxSize := config.maxSize, defaultTtl := config.ttl } }

/-- `CacheManager.generateKey(prefix, params)`: MD5 of
`JSON.stringify(params, Object.keys(params).sort())` under the namespace
prefix.  The MD5 digest is an external library call
(`crypto.createHash('md5')`), passed in as the function `md5hex`. -/
def CacheManager.generateKey (md5hex : String → String) (ns : String)
    (params : List (String × JVal)) : String :=
  let paramString := jsonStringify (sortStrings (params.map (fun p => p.1))) (.jobj params)
  ns ++ ":" ++ md5hex paramString

/-- `CacheManager.get`: `null` when caching is disabled, else the backend
lookup (whose only failure modes are modelled, so the `try`/`catch`
degradation to a miss has nothing to swallow). -/
def CacheManager.get (m : CacheManager α) (key : String) (now : ℚ) :
    Option α × CacheManager α :=
  if !m.enabled then (none, m)
  else
    let r := m.backend.get key now
    (r.1, { m with backend := r.2 })

/-- `CacheManager.set`: a no-op when disabled, else a backend store with
the configured default TTL when none is passed. -/
def CacheManager.set (m : CacheManager α) (key : String) (value : α) (ttl : Option ℚ)
    (now : ℚ) : CacheManager α :=
  if !m.enabled then m
  else { m with backend := m.backend.set key value (ttl.getD m.ttl) now }

/-! ## Validators (`src/validators.ts`) -/

/-- The character class `[A-Z]`. -/
def upperAZ (c : Char) : Bool :=
  65 ≤ c.toNat && c.toNat ≤ 90

/-- The character class `\d` (ASCII digits). -/
def digit09 (c : Char) : Bool :=
  48 ≤ c.toNat && c.toNat ≤ 57

/-- The anchored regex `^P\d{9}[A-Z]$` on a character list. -/
def pinRegexList (cs : List Char) : Bool :=
  match cs with
  | c0 :: rest =>
    c0 = 'P' && rest.length = 10 && (rest.take 9).all digit09 && (rest.drop 9).all upperAZ
  | [] => false

/-- `PIN_REGEX.test(s)` for `PIN_REGEX = /^P\d{9}[A-Z]$/`. -/
def pinRegexTest (s : String) : Bool :=
  pinRegexList s.toList

/-- `validatePinFormat` from `src/validators.ts`: reject the empty string,
normalize by `trim().toUpperCase()`, test the PIN regex, and return the
normalized value. -/
def validatePinFormat (pinNumber : String) : Except KraError String :=
  if pinNumber = "" then .error (.invalidPinFormatError "PIN number is required")
  else if pinRegexTest (jsToUpperCase (jsTrim pinNumber)) then
    .ok (jsToUpperCase (jsTrim pinNumber))
  else .error (.invalidPinFormatError (jsToUpperCase (jsTrim pinNumber)))

/-! ## Transport (`src/http-client.ts`)

The repository carries two variants of `http-client.ts`.  The first
normalizes 200/201 bodies into an envelope (`normalizeResponse`) and
classifies other statuses in `processErrorResponse`; the second returns
the 200/201 body directly and classifies everything else inline in its
`handleResponse`.  Both are embedded.  An HTTP response is its status,
its (lower-cased, as axios delivers them) headers, and its parsed body. -/

/-- An axios response as the handlers see it. -/
structure HttpResponse where
  status : ℕ
  headers : List (String × String)
  data : JVal

/-- Header lookup. -/
def lookupHeader (headers : List (String × String)) (k : String) : Option String :=
  match headers with
  | [] => none
  | (k1, v) :: rest => if k1 = k then some v else lookupHeader rest k

/-- `parseInt(response.headers['retry-after'] || '60', 10)`: `||` replaces
a missing or empty header with `'60'`; a present non-empty header goes to
`parseInt` as-is, so an unparseable one yields `NaN` (`none`). -/
def parseRetryAfter (headers : List (String × String)) : Option ℤ :=
  jsParseInt
    (match lookupHeader headers "retry-after" with
     | some v => if v = "" then "60" else v
     | none => "60")

/-- `response.data ?? {}` at the top of `normalizeResponse`. -/
def payloadOf (resp : HttpResponse) : JVal :=
  match resp.data with
  | .jnull => .jobj []
  | d => d

/-- `responseCode && responseCode !== '70000'` as a boolean. -/
def nonSuccessCode (responseCode : Option String) : Bool :=
  match responseCode with
  | some rc => rc != "70000"
  | none => false

/-- `statusText && statusText.toLowerCase().startsWith('error')`. -/
def statusSaysError (statusText : Option String) : Bool :=
  match statusText with
  | some st => (jsToLowerCase st).startsWith "error"
  | none => false

/-- The business-failure probe of `normalizeResponse`: any of a non-success
response code, an error-ish status string, a populated error-code field, or
`success === false`. -/
def isBusinessError (payload : JVal) : Bool :=
  nonSuccessCode (firstString payload ["responseCode", "ResponseCode"]) ||
  statusSaysError (firstString payload ["status", "Status"]) ||
  (firstString payload ["ErrorCode", "errorCode", "code"]).isSome ||
  boolField payload "success" == some false

/-- The error message `normalizeResponse` attaches when it flags a
business failure. -/
def extractedErrorMessage (payload : JVal) (endpoint : String) : String :=
  (firstString payload ["ErrorMessage", "errorMessage", "message", "responseDesc"]).getD
    ("API request failed for " ++ endpoint)

/-- `payload.responseData ?? payload.data ?? payload`. -/
def envelopeData (payload : JVal) : JVal :=
  match payload with
  | .jobj fields =>
    (match lookupField fields "responseData" with
     | some .jnull | none =>
       (match lookupField fields "data" with
        | some .jnull | none => payload
        | some d => d)
     | some d => d)
  | _ => payload

/-- The `metadata` record of the normalized envelope. -/
structure ResponseMetadata where
  responseCode : String
  responseDesc : Option String
  status : Option String
  errorCode : Option String
  errorMessage : Option String
  requestId : Option String

/-- `{ data, metadata, raw }`. -/
structure ApiEnvelope where
  data : JVal
  metadata : ResponseMetadata
  raw : JVal

/-- `normalizeResponse` from the first transport variant: flag business
failures hidden inside a 200/201 body as `ApiError` (carrying the
extracted message, the HTTP status and the raw payload), otherwise build
the envelope with permissively extracted metadata. -/
def normalizeResponse (resp : HttpResponse) (endpoint : String) :
    Except KraError ApiEnvelope :=
  let payload := payloadOf resp
  if isBusinessError payload then
    .error (.apiError (extractedErrorMessage payload endpoint) (some resp.status) (some payload))
  else
    .ok
      { data := envelopeData payload
        metadata :=
          { responseCode := (firstString payload ["responseCode", "ResponseCode"]).getD "70000"
            responseDesc := firstString payload ["responseDesc", "ResponseDesc"]
            status := firstString payload ["status", "Status"]
            errorCode := firstString payload ["ErrorCode", "errorCode", "code"]
            errorMessage := firstString payload ["ErrorMessage", "errorMessage"]
            requestId := firstString payload ["requestId", "RequestId"] }
        raw := payload }

/-- `processErrorResponse` from the first transport variant: 401 becomes
`ApiAuthenticationError`, 429 becomes `RateLimitExceededError` with the
parsed retry-after value, anything else an `ApiError` with the first
populated message field or a generic `HTTP error: <status>`. -/
def processErrorResponse (resp : HttpResponse) (endpoint : String) : KraError :=
  if resp.status = 401 then
    .apiAuthenticationError "Invalid credentials or authentication failed"
  else if resp.status = 429 then
    .rateLimitExceededError ((parseRetryAfter resp.headers).map (fun n => (n : ℚ)))
  else
    .apiError
      ((firstString resp.data ["ErrorMessage", "errorMessage", "message", "responseDesc"]).getD
        ("HTTP error: " ++ toString resp.status))
      (some resp.status) (some resp.data)

/-- `handleResponse` of the first transport variant: 200/201 bodies go to
the normalizer, everything else to the error extractor. -/
def handleResponseA (resp : HttpResponse) (endpoint : String) :
    Except KraError ApiEnvelope :=
  if resp.status = 200 ∨ resp.status = 201 then normalizeResponse resp endpoint
  else .error (processErrorResponse resp endpoint)

/-- `response.data?.message` under JavaScript truthiness, for the string
values the API produces (`message`/`error` are typed as strings). -/
def truthyStrField (v : JVal) (k : String) : Option String :=
  match v with
  | .jobj fields =>
    match lookupField fields k with
    | some (.jstr s) => if s = "" then none else some s
    | _ => none
  | _ => none

/-- `handleResponse` of the second transport variant: 200/201 return the
body unchanged; 401 and 429 map to the same taxonomy kinds; other 4xx use
`data?.message || data?.error || 'Client error: <status>'`; 5xx a generic
server-error message; anything else an unexpected-status `ApiError`. -/
def handleResponseB (resp : HttpResponse) (endpoint : String) : Except KraError JVal :=
  if resp.status = 200 ∨ resp.status = 201 then .ok resp.data
  else if resp.status = 401 then
    .error (.apiAuthenticationError "Invalid API key or authentication failed")
  else if resp.status = 429 then
    .error (.rateLimitExceededError ((parseRetryAfter resp.headers).map (fun n => (n : ℚ))))
  else if 400 ≤ resp.status ∧ resp.status < 500 then
    .error (.apiError
      ((truthyStrField resp.data "message").getD
        ((truthyStrField resp.data "error").getD ("Client error: " ++ toString resp.status)))
      (some resp.status) (some resp.data))
  else if 500 ≤ resp.status then
    .error (.apiError ("Server error: " ++ toString resp.status) (some resp.status)
      (some resp.data))
  else
    .error (.apiError ("Unexpected status code: " ++ toString resp.status) (some resp.status)
      none)

/-- The axios error as `retryCondition` inspects it: whether axios-retry
classifies it as a network error, its `code`, and the status of an
attached response when there is one. -/
structure AxiosErrorModel where
  isNetworkError : Bool
  code : Option String
  responseStatus : Option ℕ

/-- The `retryCondition` installed by `setupRetry` (identical in both
transport variants): network errors, timeouts when `retryOnTimeout`,
HTTP 429 when `retryOnRateLimit`, and HTTP 5xx are retryable. -/
def retryCondition (retryConfig : RetryConfigFull) (e : AxiosErrorModel) : Bool :=
  e.isNetworkError ||
  (retryConfig.retryOnTimeout && e.code == some "ECONNABORTED") ||
  (retryConfig.retryOnRateLimit && e.responseStatus == some 429) ||
  (match e.responseStatus with
   | some s => decide (500 ≤ s)
   | none => false)

/-! ## Client (`src/client.ts`)

`KraClient` composes the configuration, the cache manager and the rate
limiter.  The transport call (`this.httpClient.post`) and the MD5 digest
are the client's external collaborators, so they live in an environment
record together with the frozen clock readings. -/

/-- `PinVerificationResult` from `src/types.ts`. -/
structure PinVerificationResult where
  pinNumber : String
  isValid : Bool
  taxpayerName : Option String := none
  status : Option String := none
  registrationDate : Option String := none
  businessType : Option String := none
  postalAddress : Option String := none
  physicalAddress : Option String := none
  email : Option String := none
  phoneNumber : Option String := none
  errorMessage : Option String := none
  verifiedAt : String
deriving Repr, DecidableEq

/-- The client's external collaborators during one batch: the MD5 digest,
the transport `post` (credential attachment, retries and response
handling included), and the clock readings `Date.now()` /
`new Date().toISOString()`. -/
structure ClientEnv where
  md5hex : String → String
  post : String → JVal → Except KraError JVal
  now : ℚ
  nowIso : String

/-- `KraClient` state: merged configuration, cache manager, rate-limiter
bucket. -/
structure KraClient where
  config : KraConfigFull
  cache : CacheManager PinVerificationResult
  rl : RLState

/-- The `KraClient` constructor: merge the configuration with the defaults
(`mergeConfig` — which never validates) and initialize the components.
None of the component constructors rejects its configuration either. -/
def KraClient.init (userConfig : KraConfig) (now : ℚ) : KraClient :=
  let cfg := mergeConfig userConfig
  { config := cfg
    cache := CacheManager.init cfg.cacheConfig
    rl := { tokens := cfg.rateLimitConfig.maxRequests, lastRefill := now } }

/-- Build a `PinVerificationResult` from the transport body, as the middle
of `verifyPin` does (`responseData.valid ?? false` and the snake_case
string fields). -/
def mkPinResult (normalizedPin : String) (responseData : JVal) (nowIso : String) :
    PinVerificationResult :=
  { pinNumber := normalizedPin
    isValid := (boolField responseData "valid").getD false
    taxpayerName := strField responseData "taxpayer_name"
    status := strField responseData "status"
    registrationDate := strField responseData "registration_date"
    businessType := strField responseData "business_type"
    postalAddress := strField responseData "postal_address"
    physicalAddress := strField responseData "physical_address"
    email := strField responseData "email"
    phoneNumber := strField responseData "phone_number"
    errorMessage := none
    verifiedAt := nowIso }

/-- `KraClient.verifyPin`: validate the PIN (before any other activity),
consult the cache, acquire blocking rate-limit admission, post to
`/verify-pin`, map the body, store the result in the cache.  The
`catch` clause rethrows `KraConnectError`s unchanged, and every error the
model can produce is one, so errors pass through as-is. -/
def KraClient.verifyPin (env : ClientEnv) (c : KraClient) (pinNumber : String) :
    Except KraError PinVerificationResult × KraClient :=
  match validatePinFormat pinNumber with
  | .error e => (.error e, c)
  | .ok normalizedPin =>
    let cacheKey := CacheManager.generateKey env.md5hex "pin" [("pinNumber", .jstr normalizedPin)]
    let r1 := c.cache.get cacheKey env.now
    match r1.1 with
    | some cached => (.ok cached, { c with cache := r1.2 })
    | none =>
      let rl1 := acquireBlocking c.config.rateLimitConfig env.now c.rl
      match env.post "/verify-pin" (.jobj [("pin", .jstr normalizedPin)]) with
      | .error e => (.error e, { c with cache := r1.2, rl := rl1 })
      | .ok responseData =>
        let result := mkPinResult normalizedPin responseData env.nowIso
        let cm2 := (r1.2).set cacheKey result none env.now
        (.ok result, { c with cache := cm2, rl := rl1 })

/-- One item of `verifyPinsBatch`: `try { verifyPin(pin) } catch (e)`
degrading the failure into `{ pinNumber: pin, isValid: false,
errorMessage: e.message, verifiedAt: now }` (note the raw, un-normalized
`pin`). -/
def KraClient.verifyPinItem (env : ClientEnv) (c : KraClient) (pin : String) :
    PinVerificationResult × KraClient :=
  match KraClient.verifyPin env c pin with
  | (.ok r, c1) => (r, c1)
  | (.error e, c1) =>
    ({ pinNumber := pin
       isValid := false
       errorMessage := some (kraErrorMessage e)
       verifiedAt := env.nowIso }, c1)

/-- `KraClient.verifyPinsBatch`: `pinNumbers.map(...)` with per-item error
degradation, gathered by `Promise.all`, which preserves the input
positions.  The shared cache/limiter state threads through the items. -/
def KraClient.verifyPinsBatch (env : ClientEnv) (c : KraClient) :
    List String → List PinVerificationResult × KraClient
  | [] => ([], c)
  | pin :: rest =>
    let r := KraClient.verifyPinItem env c pin
    let rs := KraClient.verifyPinsBatch env r.2 rest
    (r.1 :: rs.1, rs.2)

/-! ## Claim C1 — configuration validation -/

/-- C1 (amended): `ConfigBuilder.validate` — which `ConfigBuilder.fromEnv`
invokes, but the `KraClient` constructor does not — accepts a
configuration exactly when the API key is non-empty, the timeout is
positive, `maxAttempts ≥ 1`, `initialDelay > 0`,
`initialDelay ≤ maxDelay`, `exponentialBase > 1`, and the cache TTL, cache
size, rate-limit request bound and rate-limit window are all positive. -/
theorem validateConfig_ok_iff (config : KraConfigFull) :
    validateConfig config = .ok () ↔
      (config.apiKey ≠ "" ∧ 0 < config.timeout ∧ 1 ≤ config.retryConfig.maxAttempts ∧
       0 < config.retryConfig.initialDelay ∧
       config.retryConfig.initialDelay ≤ config.retryConfig.maxDelay ∧
       1 < config.retryConfig.exponentialBase ∧ 0 < config.cacheConfig.ttl ∧
       0 < config.cacheConfig.maxSize ∧ 0 < config.rateLimitConfig.maxRequests ∧
       0 < config.rateLimitConfig.windowSeconds) := by
  unfold validateConfig
  split_ifs with h1 h2 h3 h4 h5 h6 h7 h8 h9 h10
  · exact iff_of_false (by simp) (fun hc => absurd h1 hc.1)
  · exact iff_of_false (by simp) (fun hc => absurd hc.2.1 (not_lt.mpr h2))
  · exact iff_of_false (by simp) (fun hc => absurd hc.2.2.1 (not_le.mpr h3))
  · exact iff_of_false (by simp) (fun hc => absurd hc.2.2.2.1 (not_lt.mpr h4))
  · exact iff_of_false (by simp) (fun hc => absurd hc.2.2.2.2.1 (not_le.mpr h5))
  · exact iff_of_false (by simp) (fun hc => absurd hc.2.2.2.2.2.1 (not_lt.mpr h6))
  · exact iff_of_false (by simp) (fun hc => absurd hc.2.2.2.2.2.2.1 (not_lt.mpr h7))
  · exact iff_of_false (by simp) (fun hc => absurd hc.2.2.2.2.2.2.2.1 (not_lt.mpr h8))
  · exact iff_of_false (by simp) (fun hc => absurd hc.2.2.2.2.2.2.2.2.1 (not_lt.mpr h9))
  · exact iff_of_false (by simp) (fun hc => absurd hc.2.2.2.2.2.2.2.2.2 (not_lt.mpr h10))
  · exact iff_of_true rfl
      ⟨h1, not_le.mp h2, not_lt.mp h3, not_le.mp h4, not_lt.mp h5, not_le.mp h6,
       not_le.mp h7, not_le.mp h8, not_le.mp h9, not_le.mp h10⟩

/-- A user configuration with a non-positive timeout. -/
def invalidTimeoutConfig : KraConfig :=
  { apiKey := "test-key", timeout := some (-5) }

/-- C1 counterexample: the `KraClient` constructor accepts a configuration
with a non-positive timeout — construction succeeds and yields a client
whose merged configuration violates the timeout bound and fails
`ConfigBuilder.validate`, so validation is not performed eagerly at
construction. -/
theorem kraClient_init_accepts_invalid_timeout :
    (KraClient.init invalidTimeoutConfig 0).config.timeout = -5 ∧
    ¬(0 < (KraClient.init invalidTimeoutConfig 0).config.timeout) ∧
    validateConfig (KraClient.init invalidTimeoutConfig 0).config =
      .error "Timeout must be positive" := by
  refine ⟨rfl, by norm_num [KraClient.init, invalidTimeoutConfig, mergeConfig], ?_⟩
  rfl

/-- C1 witness: a concrete configuration satisfying all the bounds is
accepted by `validateConfig`, via the characterization. -/
theorem validateConfig_ok_iff_witness :
    validateConfig (createDefaultConfig "test-key") = .ok () :=
  (validateConfig_ok_iff (createDefaultConfig "test-key")).mpr
    (by
      refine ⟨by decide, ?_, ?_, ?_, ?_, ?_, ?_, ?_, ?_, ?_⟩ <;>
        norm_num [createDefaultConfig, DEFAULT_RETRY_CONFIG, DEFAULT_CACHE_CONFIG,
          DEFAULT_RATE_LIMIT_CONFIG])

/-! ## Claim C2 — token-bucket exhaustion -/

theorem tryAcquire_zero_elapsed (cfg : RateLimitConfigFull) (now q : ℚ)
    (hen : cfg.enabled = true) (hq : q ≤ cfg.maxRequests) :
    tryAcquire cfg 1 now { tokens := q, lastRefill := now } =
      if 1 ≤ q then .ok { tokens := q - 1, lastRefill := now }
      else .error (.rateLimitExceededError (some cfg.windowSeconds)) := by
  have h0 : (now - now) * refillRate cfg = 0 := by ring
  unfold tryAcquire refillTokens
  rw [hen]
  simp only [Bool.not_true, Bool.false_eq_true, if_false, h0, add_zero,
    min_eq_left hq]

theorem tryAcquireN_run (C : ℕ) (W now : ℚ) :
    ∀ (k j : ℕ), k + j ≤ C →
      tryAcquireN { maxRequests := (C : ℚ), windowSeconds := W, enabled := true } now k
          { tokens := (C : ℚ) - (j : ℚ), lastRefill := now } =
        .ok { tokens := (C : ℚ) - ((j + k : ℕ) : ℚ), lastRefill := now } := by
  intro k
  induction k with
  | zero =>
    intro j _
    simp [tryAcquireN]
  | succ n ih =>
    intro j h
    have hq : (C : ℚ) - (j : ℚ) ≤ (C : ℚ) := by
      have : (0 : ℚ) ≤ (j : ℚ) := Nat.cast_nonneg j
      linarith
    have h1 : (1 : ℚ) ≤ (C : ℚ) - (j : ℚ) := by
      have : ((j : ℕ) : ℚ) + 1 ≤ (C : ℚ) := by exact_mod_cast (by omega : j + 1 ≤ C)
      linarith
    have heq : (C : ℚ) - (j : ℚ) - 1 = (C : ℚ) - (((j + 1 : ℕ)) : ℚ) := by
      push_cast
      ring
    have hstep : tryAcquire { maxRequests := (C : ℚ), windowSeconds := W, enabled := true } 1
        now { tokens := (C : ℚ) - (j : ℚ), lastRefill := now } =
        .ok { tokens := (C : ℚ) - (((j + 1 : ℕ)) : ℚ), lastRefill := now } := by
      rw [tryAcquire_zero_elapsed _ _ _ rfl hq, if_pos h1, heq]
    rw [tryAcquireN, hstep]
    have hrec := ih (j + 1) (by omega)
    have hn : j + 1 + n = j + (n + 1) := by omega
    rw [hn] at hrec
    exact hrec

theorem tryAcquireN_one (cfg : RateLimitConfigFull) (now : ℚ) (st : RLState) :
    tryAcquireN cfg now 1 st = tryAcquire cfg 1 now st := by
  cases htr : tryAcquire cfg 1 now st <;> simp [tryAcquireN, htr]

theorem tryAcquireN_add (cfg : RateLimitConfigFull) (now : ℚ) (m n : ℕ) (st : RLState) :
    tryAcquireN cfg now (m + n) st =
      match tryAcquireN cfg now m st with
      | .ok st1 => tryAcquireN cfg now n st1
      | .error e => .error e := by
  induction m generalizing st with
  | zero => simp [tryAcquireN]
  | succ k ih =>
    have hmn : k + 1 + n = (k + n) + 1 := by omega
    rw [hmn, tryAcquireN, tryAcquireN]
    cases tryAcquire cfg 1 now st with
    | ok st1 => exact ih st1
    | error e => rfl

/-- C2: for an enabled token-bucket limiter of capacity `C` over a window
of `W` seconds, starting from a full bucket with time frozen at `now`,
each of the first `C` non-blocking `acquire(1)` calls succeeds and leaves
`C - k` tokens after `k` calls, and the `(C+1)`-th call fails with
`RateLimitExceededError` carrying the configured window length `W` as its
retry hint. -/
theorem tokenBucket_exhausts_at_capacity (C : ℕ) (W now : ℚ) :
    (∀ k : ℕ, k ≤ C →
      tryAcquireN { maxRequests := (C : ℚ), windowSeconds := W, enabled := true } now k
          (rlReset { maxRequests := (C : ℚ), windowSeconds := W, enabled := true } now) =
        .ok { tokens := (C : ℚ) - (k : ℚ), lastRefill := now }) ∧
    tryAcquireN { maxRequests := (C : ℚ), windowSeconds := W, enabled := true } now (C + 1)
        (rlReset { maxRequests := (C : ℚ), windowSeconds := W, enabled := true } now) =
      .error (.rateLimitExceededError (some W)) := by
  have hst0 : rlReset { maxRequests := (C : ℚ), windowSeconds := W, enabled := true } now =
      { tokens := (C : ℚ) - ((0 : ℕ) : ℚ), lastRefill := now } := by
    simp [rlReset]
  constructor
  · intro k hk
    rw [hst0]
    have := tryAcquireN_run C W now k 0 (by omega)
    simpa using this
  · rw [hst0, tryAcquireN_add, tryAcquireN_run C W now C 0 (by omega)]
    have hzero : (C : ℚ) - (((0 + C : ℕ)) : ℚ) = 0 := by
      push_cast
      ring
    show tryAcquireN { maxRequests := (C : ℚ), windowSeconds := W, enabled := true } now 1
        { tokens := (C : ℚ) - (((0 + C : ℕ)) : ℚ), lastRefill := now } = _
    rw [hzero, tryAcquireN_one, tryAcquire_zero_elapsed _ _ _ rfl (by positivity),
      if_neg (by norm_num)]

/-- C2 witness: capacity 2, window 60 — two calls drain the bucket and the
third fails with retry hint 60. -/
theorem tokenBucket_exhausts_at_capacity_witness :
    tryAcquireN { maxRequests := (2 : ℚ), windowSeconds := 60, enabled := true } 0 2
        (rlReset { maxRequests := (2 : ℚ), windowSeconds := 60, enabled := true } 0) =
      .ok { tokens := 0, lastRefill := 0 } ∧
    tryAcquireN { maxRequests := (2 : ℚ), windowSeconds := 60, enabled := true } 0 3
        (rlReset { maxRequests := (2 : ℚ), windowSeconds := 60, enabled := true } 0) =
      .error (.rateLimitExceededError (some 60)) := by
  have h := tokenBucket_exhausts_at_capacity 2 60 0
  refine ⟨?_, h.2⟩
  have h2 := h.1 2 (by decide)
  simpa using h2

/-! ## Claim C7 — retry backoff and jitter -/

/-- C7: for a valid retry configuration, the pre-jitter delay for attempt
`n` is `min(initialDelay * exponentialBase^n, maxDelay)`; the jittered
delay for any `Math.random()` draw `rand ∈ [0, 1)` stays within
`[0.75, 1.25]` of it and is never negative; and under the default
configuration the pre-jitter delays for attempts 0 and 1 are 1000 ms and
2000 ms. -/
theorem getRetryDelay_jitter_bounds (config : RetryConfigFull) (attempt : ℕ) (rand : ℚ)
    (hInit : 0 < config.initialDelay) (hMax : config.initialDelay ≤ config.maxDelay)
    (hBase : 1 < config.exponentialBase) (hr0 : 0 ≤ rand) (hr1 : rand < 1) :
    preJitterDelay config attempt =
      min (config.initialDelay * config.exponentialBase ^ attempt) config.maxDelay ∧
    (3 / 4) * preJitterDelay config attempt ≤ getRetryDelay config attempt rand ∧
    getRetryDelay config attempt rand ≤ (5 / 4) * preJitterDelay config attempt ∧
    0 ≤ getRetryDelay config attempt rand ∧
    preJitterDelay DEFAULT_RETRY_CONFIG 0 = 1000 ∧
    preJitterDelay DEFAULT_RETRY_CONFIG 1 = 2000 := by
  have hd : 0 < preJitterDelay config attempt := by
    unfold preJitterDelay
    apply lt_min
    · exact mul_pos hInit (pow_pos (by linarith) _)
    · linarith
  have hjl : -(preJitterDelay config attempt / 4) ≤
      preJitterDelay config attempt * (1 / 4) * (2 * rand - 1) := by nlinarith
  have hju : preJitterDelay config attempt * (1 / 4) * (2 * rand - 1) ≤
      preJitterDelay config attempt / 4 := by nlinarith
  have hpos : 0 ≤ preJitterDelay config attempt +
      preJitterDelay config attempt * (1 / 4) * (2 * rand - 1) := by nlinarith
  have hmax : getRetryDelay config attempt rand =
      preJitterDelay config attempt +
        preJitterDelay config attempt * (1 / 4) * (2 * rand - 1) := by
    unfold getRetryDelay
    exact max_eq_right hpos
  refine ⟨rfl, ?_, ?_, ?_, ?_, ?_⟩
  · rw [hmax]; nlinarith
  · rw [hmax]; nlinarith
  · rw [hmax]; exact hpos
  · norm_num [preJitterDelay, DEFAULT_RETRY_CONFIG]
  · norm_num [preJitterDelay, DEFAULT_RETRY_CONFIG]

/-- C7 witness: the bounds instantiated at the default configuration,
attempt 0 and a midpoint random draw. -/
theorem getRetryDelay_jitter_bounds_witness :
    (0 : ℚ) < DEFAULT_RETRY_CONFIG.initialDelay ∧
    DEFAULT_RETRY_CONFIG.initialDelay ≤ DEFAULT_RETRY_CONFIG.maxDelay ∧
    (1 : ℚ) < DEFAULT_RETRY_CONFIG.exponentialBase ∧
    (3 / 4) * preJitterDelay DEFAULT_RETRY_CONFIG 0 ≤
      getRetryDelay DEFAULT_RETRY_CONFIG 0 (1 / 2) ∧
    getRetryDelay DEFAULT_RETRY_CONFIG 0 (1 / 2) ≤
      (5 / 4) * preJitterDelay DEFAULT_RETRY_CONFIG 0 := by
  have h1 : (0 : ℚ) < DEFAULT_RETRY_CONFIG.initialDelay := by norm_num [DEFAULT_RETRY_CONFIG]
  have h2 : DEFAULT_RETRY_CONFIG.initialDelay ≤ DEFAULT_RETRY_CONFIG.maxDelay := by
    norm_num [DEFAULT_RETRY_CONFIG]
  have h3 : (1 : ℚ) < DEFAULT_RETRY_CONFIG.exponentialBase := by
    norm_num [DEFAULT_RETRY_CONFIG]
  have h := getRetryDelay_jitter_bounds DEFAULT_RETRY_CONFIG 0 (1 / 2) h1 h2 h3
    (by norm_num) (by norm_num)
  exact ⟨h1, h2, h3, h.2.1, h.2.2.1⟩

/-! ## Claim C3 — FIFO eviction at capacity -/

theorem entriesSet_append_of_fresh {α : Type} {l : List (String × CacheEntry α)} {k : String}
    (e : CacheEntry α) (h : ∀ p ∈ l, p.1 ≠ k) : entriesSet l k e = l ++ [(k, e)] := by
  induction l with
  | nil => rfl
  | cons p rest ih =>
    obtain ⟨k1, e1⟩ := p
    have hk : k1 ≠ k := h (k1, e1) (List.mem_cons_self _ _)
    rw [entriesSet, if_neg hk, ih (fun q hq => h q (List.mem_cons_of_mem _ hq))]
    rfl

theorem entriesDelete_cons_self {α : Type} (k0 : String) (e0 : CacheEntry α)
    (tl : List (String × CacheEntry α)) (h : ∀ p ∈ tl, p.1 ≠ k0) :
    entriesDelete ((k0, e0) :: tl) k0 = tl := by
  unfold entriesDelete
  rw [List.filter_cons, if_neg (by simp)]
  exact List.filter_eq_self.mpr (fun p hp => by simpa using h p hp)

/-- C3 (amended): when every stored key is non-empty (as every key the SDK
derives is), inserting a fresh key into a cache at capacity evicts exactly
the earliest-inserted surviving entry — the result is the old store minus
its head plus the new entry appended — and the store stays at `maxSize`.
The restriction to non-empty keys is forced by the eviction guard
`if (firstKey)`, which skips eviction when the first iterated key is the
empty string. -/
theorem memSet_at_capacity_evicts_earliest {α : Type} (c : MemoryCacheBackend α)
    (k : String) (v : α) (ttl now : ℚ)
    (hsize : (c.entries.length : ℚ) = c.maxSize)
    (hcap : 1 ≤ c.maxSize)
    (hnodup : (c.entries.map Prod.fst).Nodup)
    (hfresh : ∀ p ∈ c.entries, p.1 ≠ k)
    (hne : ∀ p ∈ c.entries, p.1 ≠ "") :
    (c.set k v ttl now).entries =
      c.entries.tail ++ [(k, { value := v, expiresAt := now + ttl * 1000 })] ∧
    ((c.set k v ttl now).entries.length : ℚ) = c.maxSize := by
  cases hent : c.entries with
  | nil =>
    exfalso
    rw [hent] at hsize
    simp at hsize
    rw [← hsize] at hcap
    norm_num at hcap
  | cons hd tl =>
    obtain ⟨k0, e0⟩ := hd
    have hk0 : k0 ≠ "" := by
      have := hne (k0, e0) (by rw [hent]; exact List.mem_cons_self _ _)
      simpa using this
    have hdel : entriesDelete ((k0, e0) :: tl) k0 = tl := by
      apply entriesDelete_cons_self
      intro p hp
      rw [hent] at hnodup
      simp only [List.map_cons, List.nodup_cons] at hnodup
      intro hcontra
      exact hnodup.1 (hcontra ▸ List.mem_map_of_mem Prod.fst hp)
    have hfresh' : ∀ p ∈ tl, p.1 ≠ k := fun p hp =>
      hfresh p (by rw [hent]; exact List.mem_cons_of_mem _ hp)
    have hsz : ((c.entries.length : ℚ)) ≥ c.maxSize := le_of_eq hsize.symm
    unfold MemoryCacheBackend.set
    rw [if_pos hsz, hent]
    simp only [List.head?_cons, hk0, if_false]
    rw [hdel, entriesSet_append_of_fresh _ hfresh']
    constructor
    · rfl
    · rw [hent] at hsize
      simp only [List.length_append, List.length_cons, List.length_nil] at hsize ⊢
      push_cast at hsize ⊢
      linarith

/-- A one-slot cache whose only (and earliest) key is the empty string. -/
def emptyKeyCache : MemoryCacheBackend ℕ :=
  { entries := [("", { value := 0, expiresAt := 7200000 })], maxSize := 1, defaultTtl := 3600 }

/-- C3 counterexample: at capacity with the empty string as earliest key,
`set` evicts nothing — the earliest entry survives, the new one is
appended, and the store grows to 2 entries, exceeding `maxSize = 1`. -/
theorem memSet_empty_first_key_skips_eviction :
    ((emptyKeyCache.set "k1" 1 3600 0).entries.map Prod.fst = ["", "k1"]) ∧
    ¬(((emptyKeyCache.set "k1" 1 3600 0).entries.length : ℚ) ≤ emptyKeyCache.maxSize) := by
  have hset : (emptyKeyCache.set "k1" 1 3600 0).entries =
      [("", { value := 0, expiresAt := 7200000 }),
       ("k1", { value := 1, expiresAt := 0 + 3600 * 1000 })] := by
    unfold MemoryCacheBackend.set emptyKeyCache
    rw [if_pos (by norm_num)]
    rfl
  rw [hset]
  refine ⟨rfl, ?_⟩
  norm_num [emptyKeyCache]

/-- A concrete two-entry cache at capacity 2 with non-empty keys. -/
def twoSlotCache : MemoryCacheBackend ℕ :=
  { entries := [("a:1", { value := 10, expiresAt := 7200000 }),
                ("a:2", { value := 20, expiresAt := 7200000 })],
    maxSize := 2, defaultTtl := 3600 }

/-- C3 witness: inserting a third key into `twoSlotCache` evicts exactly
the earliest entry and appends the new one. -/
theorem memSet_at_capacity_evicts_earliest_witness :
    (twoSlotCache.set "a:3" 30 3600 0).entries =
      [("a:2", { value := 20, expiresAt := 7200000 }),
       ("a:3", { value := 30, expiresAt := 3600000 })] := by
  have h := memSet_at_capacity_evicts_earliest twoSlotCache "a:3" 30 3600 0
    (by norm_num [twoSlotCache]) (by norm_num [twoSlotCache]) (by decide)
    (by decide) (by decide)
  have h1 := h.1
  norm_num [twoSlotCache] at h1
  exact h1

/-! ## Claim C4 — lazy expiry on read -/

/-- C4: `get` never returns an entry past its expiry: if the stored entry
for `k` has `now > expiresAt` the call deletes it and reports a miss, and
conversely any value `get` returns comes from an entry with
`now ≤ expiresAt`. -/
theorem memGet_never_returns_expired {α : Type} (c : MemoryCacheBackend α) (k : String)
    (now : ℚ) :
    (∀ e : CacheEntry α, entriesGet c.entries k = some e → now > e.expiresAt →
      c.get k now = (none, { c with entries := entriesDelete c.entries k })) ∧
    (∀ v : α, (c.get k now).1 = some v →
      ∃ e : CacheEntry α, entriesGet c.entries k = some e ∧ v = e.value ∧
        now ≤ e.expiresAt) := by
  constructor
  · intro e he hexp
    unfold MemoryCacheBackend.get
    rw [he]
    simp [hexp]
  · intro v hv
    unfold MemoryCacheBackend.get at hv
    cases hg : entriesGet c.entries k with
    | none =>
      rw [hg] at hv
      simp at hv
    | some e =>
      rw [hg] at hv
      by_cases hexp : now > e.expiresAt
      · simp [hexp] at hv
      · simp [hexp] at hv
        exact ⟨e, rfl, hv.symm, not_lt.mp hexp⟩

/-- C4 witness: a concrete expired entry is deleted and reported absent. -/
theorem memGet_never_returns_expired_witness :
    entriesGet ([("k", { value := (5 : ℕ), expiresAt := 100 })]) "k" =
      some { value := 5, expiresAt := 100 } ∧
    (100 : ℚ) < 200 ∧
    (({ entries := [("k", { value := (5 : ℕ), expiresAt := 100 })], maxSize := 10,
        defaultTtl := 3600 } : MemoryCacheBackend ℕ).get "k" 200 =
      (none, { entries := [], maxSize := 10, defaultTtl := 3600 })) := by
  refine ⟨rfl, by norm_num, ?_⟩
  have h := (memGet_never_returns_expired
    ({ entries := [("k", { value := (5 : ℕ), expiresAt := 100 })], maxSize := 10,
       defaultTtl := 3600 } : MemoryCacheBackend ℕ) "k" 200).1
    { value := 5, expiresAt := 100 } rfl (by norm_num)
  simpa using h

/-! ## Claim C5 — business failures behind HTTP 200/201 -/

/-- C5: a 200/201 transport response whose body carries a response-code
field holding a non-success sentinel (any value other than `"70000"`) is
surfaced by the normalizing transport as an `ApiError` carrying the
extracted message, the HTTP status and the raw payload — never as a
successful envelope. -/
theorem handleResponseA_business_error (resp : HttpResponse) (endpoint rc : String)
    (hstatus : resp.status = 200 ∨ resp.status = 201)
    (hrc : firstString (payloadOf resp) ["responseCode", "ResponseCode"] = some rc)
    (hne : rc ≠ "70000") :
    handleResponseA resp endpoint =
      .error (.apiError (extractedErrorMessage (payloadOf resp) endpoint)
        (some resp.status) (some (payloadOf resp))) := by
  have herr : isBusinessError (payloadOf resp) = true := by
    unfold isBusinessError nonSuccessCode
    rw [hrc]
    simp [hne]
  unfold handleResponseA
  rw [if_pos hstatus]
  unfold normalizeResponse
  simp [herr]

/-- A 200 response whose normalized body carries `responseCode "70001"`. -/
def businessErrorResp : HttpResponse :=
  { status := 200, headers := [],
    data := .jobj [("responseCode", .jstr "70001"), ("responseDesc", .jstr "PIN not found")] }

/-- C5 witness: the concrete `responseCode = "70001"` payload behind an
HTTP 200 is rejected as an `ApiError` with the `responseDesc` message. -/
theorem handleResponseA_business_error_witness :
    businessErrorResp.status = 200 ∧
    firstString (payloadOf businessErrorResp) ["responseCode", "ResponseCode"] = some "70001" ∧
    handleResponseA businessErrorResp "/verify-pin" =
      .error (.apiError "PIN not found" (some 200) (some (payloadOf businessErrorResp))) := by
  refine ⟨rfl, rfl, ?_⟩
  rw [handleResponseA_business_error businessErrorResp "/verify-pin" "70001" (Or.inl rfl) rfl
    (by decide)]
  rfl

/-! ## Claim C6 — HTTP 401 / 429 classification -/

/-- C6 (amended): in both transport variants, an error response with HTTP
status 401 fails with `ApiAuthenticationError` and is not retryable, and
one with HTTP status 429 fails with `RateLimitExceededError` whose
`retryAfter` is `parseInt` of the `retry-after` header; that value is 60
whenever the header is missing or empty — but a present, unparseable
header yields `NaN` (`none`), not 60. -/
theorem errorResponse_classification (resp : HttpResponse) (endpoint : String)
    (cfg : RetryConfigFull) :
    (resp.status = 401 →
      processErrorResponse resp endpoint =
        .apiAuthenticationError "Invalid credentials or authentication failed" ∧
      handleResponseB resp endpoint =
        .error (.apiAuthenticationError "Invalid API key or authentication failed") ∧
      retryCondition cfg
        { isNetworkError := false, code := none, responseStatus := some 401 } = false) ∧
    (resp.status = 429 →
      processErrorResponse resp endpoint =
        .rateLimitExceededError ((parseRetryAfter resp.headers).map (fun n => (n : ℚ))) ∧
      handleResponseB resp endpoint =
        .error (.rateLimitExceededError
          ((parseRetryAfter resp.headers).map (fun n => (n : ℚ))))) ∧
    (lookupHeader resp.headers "retry-after" = none ∨
        lookupHeader resp.headers "retry-after" = some "" →
      parseRetryAfter resp.headers = some 60) := by
  refine ⟨?_, ?_, ?_⟩
  · intro h
    refine ⟨?_, ?_, ?_⟩
    · unfold processErrorResponse
      rw [h]
      norm_num
    · unfold handleResponseB
      rw [h]
      norm_num
    · simp [retryCondition]
  · intro h
    constructor
    · unfold processErrorResponse
      rw [h]
      norm_num
    · unfold handleResponseB
      rw [h]
      norm_num
  · intro h
    rcases h with h | h <;> unfold parseRetryAfter <;> rw [h] <;> rfl

/-- A 429 response carrying a present but unparseable retry-after header. -/
def unparseable429 : HttpResponse :=
  { status := 429, headers := [("retry-after", "abc")], data := .jnull }

/-- C6 counterexample: with the header `retry-after: abc`, the 429 path
throws `RateLimitExceededError` with `retryAfter = NaN` (`none`), not the
claimed default of 60. -/
theorem retryAfter_unparseable_is_nan :
    processErrorResponse unparseable429 "/verify-pin" = .rateLimitExceededError none ∧
    (none : Option ℚ) ≠ some 60 := by
  refine ⟨rfl, by decide⟩

/-- C6 witness: the classification applied to concrete 401 and 429
responses (the latter with the header missing, giving retryAfter 60). -/
theorem errorResponse_classification_witness :
    processErrorResponse { status := 401, headers := [], data := .jnull } "/e" =
      .apiAuthenticationError "Invalid credentials or authentication failed" ∧
    processErrorResponse { status := 429, headers := [], data := .jnull } "/e" =
      .rateLimitExceededError (some 60) ∧
    parseRetryAfter ([] : List (String × String)) = some 60 := by
  have h401 := (errorResponse_classification
    { status := 401, headers := [], data := .jnull } "/e" DEFAULT_RETRY_CONFIG).1 rfl
  have h429 := (errorResponse_classification
    { status := 429, headers := [], data := .jnull } "/e" DEFAULT_RETRY_CONFIG).2.1 rfl
  have hhdr := (errorResponse_classification
    { status := 429, headers := [], data := .jnull } "/e" DEFAULT_RETRY_CONFIG).2.2
    (Or.inl rfl)
  refine ⟨h401.1, ?_, hhdr⟩
  rw [h429.1, hhdr]
  rfl

/-! ## Claim C8 — PIN validation idempotence and case-insensitivity

Character-level facts about `Char.toUpper` on the ASCII ranges the PIN
regex admits, lifted to the string operations of `validatePinFormat`. -/

theorem charToNat_ofNat {n : ℕ} (h : n < 55296) : (Char.ofNat n).toNat = n := by
  have hv : n.isValidChar := Or.inl h
  unfold Char.ofNat
  rw [dif_pos hv]
  simp [Char.ofNatAux, Char.toNat, UInt32.toNat]

theorem toUpper_eq_self_of_not {c : Char} (h : ¬(97 ≤ c.toNat ∧ c.toNat ≤ 122)) :
    Char.toUpper c = c := by
  simp only [Char.toUpper]
  rw [if_neg h]

theorem toNat_toUpper_of_lower {c : Char} (h1 : 97 ≤ c.toNat) (h2 : c.toNat ≤ 122) :
    (Char.toUpper c).toNat = c.toNat - 32 := by
  simp only [Char.toUpper]
  rw [if_pos ⟨h1, h2⟩]
  exact charToNat_ofNat (by omega)

theorem toUpper_idem (c : Char) : Char.toUpper (Char.toUpper c) = Char.toUpper c := by
  by_cases h : 97 ≤ c.toNat ∧ c.toNat ≤ 122
  · have h2 := toNat_toUpper_of_lower h.1 h.2
    exact toUpper_eq_self_of_not (by omega)
  · rw [toUpper_eq_self_of_not h]
    exact toUpper_eq_self_of_not h

theorem ws_toUpper (c : Char) :
    jsWhitespaceChar (Char.toUpper c) = jsWhitespaceChar c := by
  by_cases h : 97 ≤ c.toNat ∧ c.toNat ≤ 122
  · have h2 := toNat_toUpper_of_lower h.1 h.2
    have hL : jsWhitespaceChar (Char.toUpper c) = false := by
      simp only [jsWhitespaceChar, h2]
      simp only [Bool.or_eq_false_iff, decide_eq_false_iff_not]
      omega
    have hR : jsWhitespaceChar c = false := by
      simp only [jsWhitespaceChar]
      simp only [Bool.or_eq_false_iff, decide_eq_false_iff_not]
      omega
    rw [hL, hR]
  · rw [toUpper_eq_self_of_not h]

theorem map_congr_mem {f g : Char → Char} {l : List Char} (h : ∀ c ∈ l, f c = g c) :
    l.map f = l.map g := by
  induction l with
  | nil => rfl
  | cons c cs ih =>
    rw [List.map_cons, List.map_cons, h c (List.mem_cons_self _ _),
      ih (fun x hx => h x (List.mem_cons_of_mem _ hx))]

theorem map_eq_self_of_fixed {l : List Char} (h : ∀ c ∈ l, Char.toUpper c = c) :
    l.map Char.toUpper = l := by
  induction l with
  | nil => rfl
  | cons c cs ih =>
    rw [List.map_cons, h c (List.mem_cons_self _ _),
      ih (fun x hx => h x (List.mem_cons_of_mem _ hx))]

theorem dropWhile_eq_self_of_false {p : Char → Bool} {l : List Char}
    (h : ∀ c ∈ l, p c = false) : l.dropWhile p = l := by
  cases l with
  | nil => rfl
  | cons c cs =>
    rw [List.dropWhile_cons, h c (List.mem_cons_self _ _)]
    simp

theorem jsTrimList_eq_self {l : List Char} (h : ∀ c ∈ l, jsWhitespaceChar c = false) :
    jsTrimList l = l := by
  unfold jsTrimList
  rw [dropWhile_eq_self_of_false h,
    dropWhile_eq_self_of_false (fun c hc => h c (List.mem_reverse.mp hc)),
    List.reverse_reverse]

theorem dropWhile_ws_map_toUpper (l : List Char) :
    (l.map Char.toUpper).dropWhile jsWhitespaceChar =
      (l.dropWhile jsWhitespaceChar).map Char.toUpper := by
  induction l with
  | nil => rfl
  | cons c cs ih =>
    rw [List.map_cons, List.dropWhile_cons, List.dropWhile_cons, ws_toUpper c]
    cases hws : jsWhitespaceChar c with
    | true => simpa using ih
    | false => simp [List.map_cons]

theorem jsTrimList_map_toUpper (l : List Char) :
    jsTrimList (l.map Char.toUpper) = (jsTrimList l).map Char.toUpper := by
  unfold jsTrimList
  rw [dropWhile_ws_map_toUpper, ← List.map_reverse, dropWhile_ws_map_toUpper,
    ← List.map_reverse]

theorem toList_mk (l : List Char) : (String.mk l).toList = l := rfl

theorem jsToUpperCase_trim_comm (s : String) :
    jsTrim (jsToUpperCase s) = jsToUpperCase (jsTrim s) := by
  unfold jsTrim jsToUpperCase
  rw [toList_mk, toList_mk, jsTrimList_map_toUpper]
  rfl

theorem jsToUpperCase_idem (s : String) :
    jsToUpperCase (jsToUpperCase s) = jsToUpperCase s := by
  unfold jsToUpperCase
  rw [toList_mk, List.map_map]
  exact congrArg String.mk (map_congr_mem (fun c _ => toUpper_idem c))

theorem jsToUpperCase_eq_empty {s : String} (h : jsToUpperCase s = "") : s = "" := by
  cases s with
  | mk data =>
    have h2 : data.map Char.toUpper = [] := congrArg String.toList h
    have h3 : data = [] := List.map_eq_nil_iff.mp h2
    rw [h3]

theorem pinRegexList_bounds {l : List Char} (h : pinRegexList l = true) :
    (∀ c ∈ l, 48 ≤ c.toNat ∧ c.toNat ≤ 90) ∧ l ≠ [] := by
  match l with
  | [] => simp [pinRegexList] at h
  | c0 :: rest =>
    unfold pinRegexList at h
    simp only [Bool.and_eq_true, decide_eq_true_eq, List.all_eq_true] at h
    obtain ⟨⟨⟨hP, _⟩, hdig⟩, hupper⟩ := h
    refine ⟨?_, by simp⟩
    intro c hc
    rcases List.mem_cons.mp hc with hc0 | hcr
    · subst hc0
      rw [hP]
      decide
    · have hsplit : c ∈ rest.take 9 ++ rest.drop 9 := by
        rw [List.take_append_drop]
        exact hcr
      rcases List.mem_append.mp hsplit with h1 | h2
      · have hd := hdig c h1
        unfold digit09 at hd
        simp only [Bool.and_eq_true, decide_eq_true_eq] at hd
        omega
      · have hu := hupper c h2
        unfold upperAZ at hu
        simp only [Bool.and_eq_true, decide_eq_true_eq] at hu
        omega

/-- C8: PIN validation is idempotent — a value it has accepted is returned
unchanged when validated again — and case-insensitive: validating any
input gives the same outcome as validating its upper-cased form. -/
theorem validatePinFormat_idem_caseless (s t : String) :
    (validatePinFormat s = .ok t → validatePinFormat t = .ok t) ∧
    validatePinFormat s = validatePinFormat (jsToUpperCase s) := by
  constructor
  · intro h
    unfold validatePinFormat at h
    by_cases hs : s = ""
    · rw [if_pos hs] at h
      simp at h
    · rw [if_neg hs] at h
      by_cases hre : pinRegexTest (jsToUpperCase (jsTrim s)) = true
      · rw [if_pos hre] at h
        simp only [Except.ok.injEq] at h
        subst h
        have hreT : pinRegexList (jsToUpperCase (jsTrim s)).toList = true := hre
        have hchars := (pinRegexList_bounds hreT).1
        have hnonempty : jsToUpperCase (jsTrim s) ≠ "" := by
          intro h0
          apply (pinRegexList_bounds hreT).2
          rw [h0]
          rfl
        have htrim : jsTrim (jsToUpperCase (jsTrim s)) = jsToUpperCase (jsTrim s) := by
          unfold jsTrim
          rw [jsTrimList_eq_self (fun c hc => by
            have hb := hchars c hc
            simp only [jsWhitespaceChar, Bool.or_eq_false_iff, decide_eq_false_iff_not]
            omega)]
          cases jsToUpperCase (jsTrim s)
          rfl
        have hupper :
            jsToUpperCase (jsToUpperCase (jsTrim s)) = jsToUpperCase (jsTrim s) :=
          jsToUpperCase_idem (jsTrim s)
        unfold validatePinFormat
        rw [if_neg hnonempty, htrim, hupper, if_pos hre]
      · rw [if_neg hre] at h
        simp at h
  · by_cases hs : s = ""
    · subst hs
      rfl
    · have hsu : jsToUpperCase s ≠ "" := fun h => hs (jsToUpperCase_eq_empty h)
      unfold validatePinFormat
      rw [if_neg hs, if_neg hsu, jsToUpperCase_trim_comm, jsToUpperCase_idem]

/-- C8 witness: a concrete lower-case PIN normalizes to its upper-case
form, revalidating the result returns it unchanged, and the lower-case and
upper-case inputs validate identically. -/
theorem validatePinFormat_idem_caseless_witness :
    validatePinFormat "p051234567a" = .ok "P051234567A" ∧
    validatePinFormat "P051234567A" = .ok "P051234567A" ∧
    validatePinFormat "p051234567a" = validatePinFormat (jsToUpperCase "p051234567a") := by
  have h1 : validatePinFormat "p051234567a" = .ok "P051234567A" := rfl
  have h := validatePinFormat_idem_caseless "p051234567a" "P051234567A"
  exact ⟨h1, h.1 h1, h.2⟩

/-! ## Claim C9 — batch verification isolates failures -/

theorem verifyPinItem_ok {env : ClientEnv} {c c1 : KraClient} {pin : String}
    {r : PinVerificationResult}
    (h : KraClient.verifyPin env c pin = (.ok r, c1)) :
    KraClient.verifyPinItem env c pin = (r, c1) := by
  unfold KraClient.verifyPinItem
  rw [h]

theorem verifyPinItem_error {env : ClientEnv} {c c1 : KraClient} {pin : String}
    {e : KraError} (h : KraClient.verifyPin env c pin = (.error e, c1)) :
    KraClient.verifyPinItem env c pin =
      ({ pinNumber := pin, isValid := false, errorMessage := some (kraErrorMessage e),
         verifiedAt := env.nowIso }, c1) := by
  unfold KraClient.verifyPinItem
  rw [h]

theorem verifyPinsBatch_cons (env : ClientEnv) (c : KraClient) (p0 : String)
    (rest : List String) :
    KraClient.verifyPinsBatch env c (p0 :: rest) =
      ((KraClient.verifyPinItem env c p0).1 ::
        (KraClient.verifyPinsBatch env (KraClient.verifyPinItem env c p0).2 rest).1,
       (KraClient.verifyPinsBatch env (KraClient.verifyPinItem env c p0).2 rest).2) := rfl

/-- C9: `verifyPinsBatch` never propagates an individual item's error.
The result list is index-aligned with the input — same length, and the
`i`-th result comes from verifying the `i`-th pin against the state
threaded through the first `i` items: a successful `verifyPin` contributes
its own result, a failing one a degraded result with `isValid = false`
carrying the error's message and the raw input pin. -/
theorem verifyPinsBatch_isolates_failures (env : ClientEnv) (c : KraClient)
    (pins : List String) :
    (KraClient.verifyPinsBatch env c pins).1.length = pins.length ∧
    (∀ (i : ℕ) (p : String) (r : PinVerificationResult),
      pins.get? i = some p →
      (KraClient.verifyPinsBatch env c pins).1.get? i = some r →
      ((KraClient.verifyPin env
          (KraClient.verifyPinsBatch env c (pins.take i)).2 p).1 = .ok r ∨
       ∃ e, (KraClient.verifyPin env
          (KraClient.verifyPinsBatch env c (pins.take i)).2 p).1 = .error e ∧
        r = { pinNumber := p, isValid := false, errorMessage := some (kraErrorMessage e),
              verifiedAt := env.nowIso })) := by
  induction pins generalizing c with
  | nil =>
    refine ⟨rfl, ?_⟩
    intro i p r hp _
    simp at hp
  | cons p0 rest ih =>
    constructor
    · rw [verifyPinsBatch_cons]
      simp only [List.length_cons]
      rw [(ih (KraClient.verifyPinItem env c p0).2).1]
    · intro i p r hp hr
      cases i with
      | zero =>
        simp only [List.get?_cons_zero, Option.some.injEq] at hp
        subst hp
        rw [verifyPinsBatch_cons] at hr
        simp only [List.get?_cons_zero, Option.some.injEq] at hr
        have hstate : (KraClient.verifyPinsBatch env c ((p0 :: rest).take 0)).2 = c := rfl
        rw [hstate]
        rcases hv : KraClient.verifyPin env c p0 with ⟨x, c1⟩
        cases x with
        | ok res =>
          left
          rw [verifyPinItem_ok hv] at hr
          show Except.ok res = Except.ok r
          rw [show res = r from hr]
        | error e =>
          right
          rw [verifyPinItem_error hv] at hr
          exact ⟨e, rfl, hr.symm⟩
      | succ i =>
        simp only [List.get?_cons_succ] at hp
        rw [verifyPinsBatch_cons] at hr
        simp only [List.get?_cons_succ] at hr
        have hrec := (ih (KraClient.verifyPinItem env c p0).2).2 i p r hp hr
        have htake : (p0 :: rest).take (i + 1) = p0 :: rest.take i := rfl
        rw [htake, verifyPinsBatch_cons]
        exact hrec

/-- A transport that always fails, with identity in place of the MD5
digest (any digest works for these statements). -/
def failEnv : ClientEnv :=
  { md5hex := fun s => s
    post := fun _ _ => .error (.apiError "boom" none none)
    now := 0
    nowIso := "2025-01-15T00:00:00.000Z" }

/-- A client with cache and rate limiter disabled (the configuration knobs
exist precisely so callers can do this). -/
def plainClient : KraClient :=
  KraClient.init
    { apiKey := "test-key", cacheConfig := { enabled := some false },
      rateLimitConfig := { enabled := some false } } 0

/-- C9 witness: one failing pin yields a same-length batch whose sole
entry is the degraded result carrying the transport error's message. -/
theorem verifyPinsBatch_isolates_failures_witness :
    (["p051234567a"].get? 0 = some "p051234567a") ∧
    ((KraClient.verifyPinsBatch failEnv plainClient ["p051234567a"]).1.get? 0 =
      some { pinNumber := "p051234567a", isValid := false, errorMessage := some "boom",
             verifiedAt := "2025-01-15T00:00:00.000Z" }) ∧
    ((KraClient.verifyPin failEnv
        (KraClient.verifyPinsBatch failEnv plainClient
          (["p051234567a"].take 0)).2 "p051234567a").1 =
      .ok { pinNumber := "p051234567a", isValid := false, errorMessage := some "boom",
            verifiedAt := "2025-01-15T00:00:00.000Z" } ∨
     ∃ e, (KraClient.verifyPin failEnv
        (KraClient.verifyPinsBatch failEnv plainClient
          (["p051234567a"].take 0)).2 "p051234567a").1 = .error e ∧
      ({ pinNumber := "p051234567a", isValid := false, errorMessage := some "boom",
         verifiedAt := "2025-01-15T00:00:00.000Z" } : PinVerificationResult) =
        { pinNumber := "p051234567a", isValid := false,
          errorMessage := some (kraErrorMessage e),
          verifiedAt := failEnv.nowIso }) := by
  refine ⟨rfl, rfl, ?_⟩
  exact (verifyPinsBatch_isolates_failures failEnv plainClient ["p051234567a"]).2 0
    "p051234567a" _ rfl rfl

/-! ## Claim C10 — replacer-array key derivation drops nested fields -/

theorem jsonStringify_jobj (allowed : List String) (fields : List (String × JVal)) :
    jsonStringify allowed (.jobj fields) =
      "\x7b" ++ String.intercalate ","
        ((orderFields allowed fields).map
          (fun kv => quoteJson kv.1 ++ ":" ++ jsonStringify allowed kv.2)) ++ "\x7d" := by
  rw [jsonStringify]
  rw [List.attach_map_val (orderFields allowed fields)
    (fun kv => quoteJson kv.1 ++ ":" ++ jsonStringify allowed kv.2)]

/-- The values of two parameter objects at one key agree up to dropped
properties: either they are equal outright, or both are objects whose
allowed-key projections coincide (their differences live only at property
names the replacer array filters out). -/
def nestedDropAgree (ks : List String) (o1 o2 : Option JVal) : Prop :=
  o1 = o2 ∨
  ∃ f1 f2, o1 = some (.jobj f1) ∧ o2 = some (.jobj f2) ∧
    orderFields ks f1 = orderFields ks f2

theorem orderFields_cons_none {fields : List (String × JVal)} {k : String}
    (ks : List String) (h : lookupField fields k = none) :
    orderFields (k :: ks) fields = orderFields ks fields := by
  unfold orderFields
  rw [List.filterMap_cons]
  simp [h]

theorem orderFields_cons_some {fields : List (String × JVal)} {k : String} {v : JVal}
    (ks : List String) (h : lookupField fields k = some v) :
    orderFields (k :: ks) fields = (k, v) :: orderFields ks fields := by
  unfold orderFields
  rw [List.filterMap_cons]
  simp [h]

theorem stringifyParts_congr (allKeys : List String) :
    ∀ (ks : List String) (p1 p2 : List (String × JVal)),
      (∀ k ∈ ks, nestedDropAgree allKeys (lookupField p1 k) (lookupField p2 k)) →
      (orderFields ks p1).map
          (fun kv => quoteJson kv.1 ++ ":" ++ jsonStringify allKeys kv.2) =
        (orderFields ks p2).map
          (fun kv => quoteJson kv.1 ++ ":" ++ jsonStringify allKeys kv.2) := by
  intro ks
  induction ks with
  | nil =>
    intro p1 p2 _
    rfl
  | cons k ks ih =>
    intro p1 p2 h
    have hk := h k (List.mem_cons_self _ _)
    have hrest := fun k' hk' => h k' (List.mem_cons_of_mem _ hk')
    rcases hk with heq | ⟨f1, f2, h1, h2, hord⟩
    · cases h2v : lookupField p2 k with
      | none =>
        rw [orderFields_cons_none ks (heq.trans h2v), orderFields_cons_none ks h2v]
        exact ih p1 p2 hrest
      | some v =>
        rw [orderFields_cons_some ks (heq.trans h2v), orderFields_cons_some ks h2v,
          List.map_cons, List.map_cons]
        congr 1
        exact ih p1 p2 hrest
    · rw [orderFields_cons_some ks h1, orderFields_cons_some ks h2,
        List.map_cons, List.map_cons]
      congr 1
      · show quoteJson k ++ ":" ++ jsonStringify allKeys (.jobj f1) =
            quoteJson k ++ ":" ++ jsonStringify allKeys (.jobj f2)
        rw [jsonStringify_jobj, jsonStringify_jobj, hord]
      · exact ih p1 p2 hrest

/-- C10: because `generateKey` stringifies with the sorted top-level key
list as a replacer array — which filters property names at every nesting
depth — any two parameter objects with the same sorted top-level keys
whose values agree after dropping nested properties not named among those
keys hash to the identical cache key, for every digest function: logically
different requests collide. -/
theorem generateKey_ignores_filtered_nested_fields (md5hex : String → String)
    (ns : String) (p1 p2 : List (String × JVal))
    (hkeys : sortStrings (p1.map (fun p => p.1)) = sortStrings (p2.map (fun p => p.1)))
    (hagree : ∀ k ∈ sortStrings (p1.map (fun p => p.1)),
      nestedDropAgree (sortStrings (p1.map (fun p => p.1)))
        (lookupField p1 k) (lookupField p2 k)) :
    CacheManager.generateKey md5hex ns p1 = CacheManager.generateKey md5hex ns p2 := by
  have hs : jsonStringify (sortStrings (p1.map (fun p => p.1))) (.jobj p1) =
      jsonStringify (sortStrings (p1.map (fun p => p.1))) (.jobj p2) := by
    rw [jsonStringify_jobj, jsonStringify_jobj,
      stringifyParts_congr (sortStrings (p1.map (fun p => p.1)))
        (sortStrings (p1.map (fun p => p.1))) p1 p2 hagree]
  unfold CacheManager.generateKey
  rw [← hkeys, hs]

/-- Two parameter objects that differ only inside a nested object, at a
property name absent from the top-level key list. -/
def collideP1 : List (String × JVal) := [("pinNumber", .jobj [("nested", .jstr "1")])]

/-- The second colliding parameter object. -/
def collideP2 : List (String × JVal) := [("pinNumber", .jobj [("nested", .jstr "2")])]

/-- C10 witness: the two distinct parameter objects produce the identical
cache key (shown for the identity digest; the theorem applies to every
digest function). -/
theorem generateKey_ignores_filtered_nested_fields_witness :
    collideP1 ≠ collideP2 ∧
    sortStrings (collideP1.map (fun p => p.1)) =
      sortStrings (collideP2.map (fun p => p.1)) ∧
    CacheManager.generateKey (fun s => s) "pin" collideP1 =
      CacheManager.generateKey (fun s => s) "pin" collideP2 := by
  have hag : ∀ k ∈ sortStrings (collideP1.map (fun p => p.1)),
      nestedDropAgree (sortStrings (collideP1.map (fun p => p.1)))
        (lookupField collideP1 k) (lookupField collideP2 k) := by
    intro k hk
    have hk2 : k ∈ ["pinNumber"] := hk
    simp only [List.mem_singleton] at hk2
    subst hk2
    right
    exact ⟨[("nested", .jstr "1")], [("nested", .jstr "2")], rfl, rfl, rfl⟩
  refine ⟨?_, rfl, generateKey_ignores_filtered_nested_fields (fun s => s) "pin"
    collideP1 collideP2 rfl hag⟩
  intro h
  have hx := congrArg (fun l =>
    match lookupField l "pinNumber" with
    | some (.jobj f) =>
      (match lookupField f "nested" with
       | some (.jstr sv) => sv
       | _ => "")
    | _ => "") h
  exact absurd hx (by decide)

end KraSpec
